import Mathlib

/-!
Verification development for the Health & Speed Checker orchestration engine.

The definitions below are a shallow embedding of the Rust sources under
`agent/src/` (`lib.rs`, `license.rs`, `daemon.rs`, `db.rs`, and
`checkers/network.rs`).  Conventions used throughout:

* Machine integers (`u8`, `u64`, `i64`) are embedded as `Nat`/`Int`; the
  values manipulated here (scores in `[0,100]`, Unix timestamps) are far
  from any overflow boundary.
* `f32` values and arithmetic are embedded exactly: an `F32` is a dyadic
  significand/exponent pair, every multiply and subtract of the scoring
  loop rounds its exact result to 24 significand bits, to nearest with
  ties to even, with granularity floored at `2 ^ (-149)` (subnormals);
  the finite-overflow threshold `2 ^ 128` is unreachable in this
  pipeline, so it is not modelled.  Source constants are carried at
  their `f32` values: `0.8f32` is `13421773 / 2 ^ 24`, not `4/5`.
* Rust `Result<T, String>` becomes `Except String T`; a function that may
  panic is given an `Option` codomain, `none` standing for an escaping
  panic (unwinding).
* Ambient effects (the wall clock, the SQLite store, the license file) are
  turned into explicit parameters: `now` for `chrono::Utc::now`, an
  `Option` row/file value for reads, and a returned value for writes.
-/

namespace HealthSpeed

/-! ### Core data types (`agent/src/lib.rs`) -/

/-- `IssueSeverity` from `lib.rs`. -/
inductive IssueSeverity where
  | Critical
  | Warning
  | Info
deriving DecidableEq, Repr

/-- `ImpactCategory` from `lib.rs`. -/
inductive ImpactCategory where
  | Security
  | Performance
  | Privacy
  | Both
deriving DecidableEq, Repr

/-- `serde_json::Value` parameter payloads.  The engine treats fix
parameters as an opaque map, so they are embedded as a string-keyed
association list; `json!({})` is the empty map. -/
structure JsonValue where
  entries : List (String × String)
deriving DecidableEq, Repr

/-- `FixAction` from `lib.rs`. -/
structure FixAction where
  action_id : String
  label : String
  is_auto_fix : Bool
  params : JsonValue
deriving DecidableEq, Repr

/-- `Issue` from `lib.rs`. -/
structure Issue where
  id : String
  severity : IssueSeverity
  title : String
  description : String
  impact_category : ImpactCategory
  fix : Option FixAction
deriving DecidableEq, Repr

/-- `SystemScores` from `lib.rs`; the `u8` scores become `Nat`, the
optional `i8` deltas become `Option Int`. -/
structure SystemScores where
  health : Nat
  speed : Nat
  health_delta : Option Int
  speed_delta : Option Int
deriving DecidableEq, Repr

/-- `FixResult` from `lib.rs`. -/
structure FixResult where
  success : Bool
  message : String
  rollback_available : Bool
  restore_point_id : Option String
deriving DecidableEq, Repr

/-- `FixResult::failure` from `lib.rs` (named `mkFailure` because `success`
and `failure` already name the record fields' accessors in Lean). -/
def FixResult.mkFailure (message : String) : FixResult :=
  { success := false
    message := message
    rollback_available := false
    restore_point_id := none }

/-- `FixResult::success` from `lib.rs`. -/
def FixResult.mkSuccess (message : String) : FixResult :=
  { success := true
    message := message
    rollback_available := false
    restore_point_id := none }

/-- `ScanOptions` from `lib.rs`. -/
structure ScanOptions where
  security : Bool
  performance : Bool
  quick : Bool
  exclude_apps : Bool
  exclude_startup : Bool
deriving DecidableEq, Repr

/-- `ScanOptions::default` from `lib.rs`. -/
def ScanOptions.default : ScanOptions :=
  { security := true
    performance := true
    quick := false
    exclude_apps := false
    exclude_startup := false }

/-- `ScanResult` from `lib.rs`.  The hard-coded placeholder `details`
block built in `ScannerEngine::scan` carries no information (it is a
constant) and is elided from the embedding. -/
structure ScanResult where
  scan_id : String
  timestamp : Nat
  duration_ms : Nat
  scores : SystemScores
  issues : List Issue
deriving DecidableEq, Repr

/-! ### Binary32 arithmetic

The scoring loop runs in `f32`.  An `F32` is a finite binary32 value
written as `m * 2 ^ e`; the representation is not unique (that is
harmless: operations act on the value, and every operation rounds).
Rounding keeps 24 significand bits, to nearest with ties to even, and
never uses a granularity below `2 ^ (-149)` (IEEE-754 subnormals).
Overflow to infinity at `2 ^ 128` is not modelled: the scoring pipeline
subtracts penalties bounded by hundreds per issue and would need more
issues than a `Vec` can hold to approach it, and the final clamp sends
every out-of-range value to the same result as true `f32` would. -/

/-- A finite binary32 value, as the dyadic rational `m * 2 ^ e`. -/
structure F32 where
  m : Int
  e : Int
deriving DecidableEq, Repr

/-- The rational value of an `F32`. -/
def F32.toRat (x : F32) : ℚ := (x.m : ℚ) * 2 ^ x.e

/-- The `f32` literal `0.0`. -/
def F32.zero : F32 := ⟨0, 0⟩

/-- The `f32` literal `1.0` (the `unwrap_or(&1.0)` default weight). -/
def F32.one : F32 := ⟨1, 0⟩

/-- The `f32` literal `100.0`. -/
def F32.hundred : F32 := ⟨100, 0⟩

/-- Bit length of a natural number (`⌊log2 n⌋ + 1` for positive `n`),
computed with structural fuel (`n` halvings always suffice). -/
def natBitsAux : Nat → Nat → Nat
  | 0, _ => 0
  | fuel + 1, n => if n = 0 then 0 else natBitsAux fuel (n / 2) + 1

/-- Bit length of a natural number. -/
def natBits (n : Nat) : Nat := natBitsAux n n

/-- Round `m / 2 ^ s` (for `s ≥ 1`) to the nearest integer, ties to
even. -/
def roundShift (m : Nat) (s : Nat) : Nat :=
  let q := m / 2 ^ s
  let r := m % 2 ^ s
  let half := 2 ^ (s - 1)
  if r < half then q
  else if half < r then q + 1
  else if q % 2 = 0 then q else q + 1

/-- Round the exact dyadic `m * 2 ^ e` to binary32: keep at most 24
significand bits and a granularity of at least `2 ^ (-149)`, to nearest,
ties to even. -/
def roundDyadic (m : Int) (e : Int) : F32 :=
  if m = 0 then F32.zero
  else
    let n := m.natAbs
    let s := max ((natBits n : Int) - 24) (-149 - e)
    if s ≤ 0 then ⟨m, e⟩
    else ⟨m.sign * (roundShift n s.toNat : Int), e + s⟩

/-- `f32` multiplication: the exact product, rounded. -/
def F32.mul (a b : F32) : F32 := roundDyadic (a.m * b.m) (a.e + b.e)

/-- `f32` subtraction: the exact difference (significands aligned at the
smaller exponent), rounded. -/
def F32.sub (a b : F32) : F32 :=
  let k := min a.e b.e
  roundDyadic (a.m * 2 ^ (a.e - k).toNat - b.m * 2 ^ (b.e - k).toNat) k

/-- Value comparison of two `F32`s by aligned significands. -/
def F32.blt (a b : F32) : Bool :=
  let k := min a.e b.e
  a.m * 2 ^ (a.e - k).toNat < b.m * 2 ^ (b.e - k).toNat

/-- `f32::max` (exact, no rounding; no NaNs arise in this pipeline). -/
def F32.max (a b : F32) : F32 := if F32.blt a b then b else a

/-- `f32::min` (exact, no rounding). -/
def F32.min (a b : F32) : F32 := if F32.blt b a then b else a

/-- Rust `as u8` on a clamped non-negative `f32`: truncate toward zero
(the floor), saturating non-positive values at 0. -/
def F32.toTruncNat (x : F32) : Nat :=
  if x.m ≤ 0 then 0
  else if 0 ≤ x.e then x.m.toNat * 2 ^ x.e.toNat
  else x.m.toNat / 2 ^ (-x.e).toNat

/-! ### Scoring engine (`lib.rs`, `ScoringEngine`) -/

/-- `ScoringEngine` from `lib.rs`: the `HashMap<String, f32>` weight table
is embedded as an association list looked up by key. -/
structure ScoringEngine where
  weights : List (String × F32)

/-- `ScoringEngine::default` from `lib.rs`, with the four weight overrides
at their `f32` values: `1.5 = 3 * 2 ^ (-1)`, `2.0`, `2.0`, and `0.8f32`,
which is `13421773 * 2 ^ (-24) = 0.800000011920928955078125` (0.8 itself
is not representable in binary floating point). -/
def ScoringEngine.default : ScoringEngine :=
  { weights :=
      [ ("windows_update_pending", ⟨3, -1⟩)
      , ("firewall_disabled", ⟨2, 0⟩)
      , ("rdp_port_open", ⟨2, 0⟩)
      , ("excessive_startup_items", ⟨13421773, -24⟩) ] }

/-- `self.weights.get(&issue.id).unwrap_or(&1.0)` from
`ScoringEngine::calculate_scores`. -/
def ScoringEngine.weight (e : ScoringEngine) (id : String) : F32 :=
  (e.weights.lookup id).getD F32.one

/-- One loop iteration of `ScoringEngine::calculate_scores`: subtract the
weighted penalty of `issue` from the `(health, speed)` accumulator pair.
Each `penalty * weight` product and each `-=` subtraction is one rounded
`f32` operation; the penalty constants are exact small integers. -/
def scoreStep (e : ScoringEngine) (acc : F32 × F32) (issue : Issue) :
    F32 × F32 :=
  let weight := e.weight issue.id
  match issue.impact_category with
  | ImpactCategory.Security =>
      (F32.sub acc.1
        (match issue.severity with
         | IssueSeverity.Critical => F32.mul ⟨20, 0⟩ weight
         | IssueSeverity.Warning => F32.mul ⟨10, 0⟩ weight
         | IssueSeverity.Info => F32.mul ⟨2, 0⟩ weight),
       acc.2)
  | ImpactCategory.Performance =>
      (acc.1,
       F32.sub acc.2
        (match issue.severity with
         | IssueSeverity.Critical => F32.mul ⟨25, 0⟩ weight
         | IssueSeverity.Warning => F32.mul ⟨12, 0⟩ weight
         | IssueSeverity.Info => F32.mul ⟨3, 0⟩ weight))
  | ImpactCategory.Both =>
      (F32.sub acc.1 (F32.mul ⟨15, 0⟩ weight),
       F32.sub acc.2 (F32.mul ⟨15, 0⟩ weight))
  | ImpactCategory.Privacy => acc

/-- `score.max(0.0).min(100.0) as u8` from `calculate_scores`: clamp the
`f32` accumulator to `[0, 100]` (exact `f32` max/min), then truncate
toward zero — on the clamped non-negative value that is the floor. -/
def clampTrunc (x : F32) : Nat :=
  (F32.min (F32.max x F32.zero) F32.hundred).toTruncNat

/-- The spec-side clamp-and-floor on exact rationals (used by the
reference scoring definition below). -/
def clampScore (q : ℚ) : Nat := ⌊min (max q 0) 100⌋.toNat

/-- `ScoringEngine::calculate_scores` from `lib.rs`, in `f32` arithmetic. -/
def ScoringEngine.calculate_scores (e : ScoringEngine) (issues : List Issue) :
    SystemScores :=
  let final := issues.foldl (scoreStep e) (F32.hundred, F32.hundred)
  { health := clampTrunc final.1
    speed := clampTrunc final.2
    health_delta := none
    speed_delta := none }

/-! Reference scoring definition, written from the specification's words
("subtracts weight times the severity penalty", then clamp and floor), to
be compared with the embedding of the source above. -/

/-- Spec §4.2: health penalty of a single issue (Security issues use the
`20/10/2` table, `Both` issues a flat `15`, others contribute nothing). -/
def specHealthPenalty (w : String → ℚ) (issue : Issue) : ℚ :=
  match issue.impact_category with
  | ImpactCategory.Security =>
      (match issue.severity with
       | IssueSeverity.Critical => 20
       | IssueSeverity.Warning => 10
       | IssueSeverity.Info => 2) * w issue.id
  | ImpactCategory.Both => 15 * w issue.id
  | _ => 0

/-- Spec §4.2: speed penalty of a single issue (Performance issues use the
`25/12/3` table, `Both` issues a flat `15`, others contribute nothing). -/
def specSpeedPenalty (w : String → ℚ) (issue : Issue) : ℚ :=
  match issue.impact_category with
  | ImpactCategory.Performance =>
      (match issue.severity with
       | IssueSeverity.Critical => 25
       | IssueSeverity.Warning => 12
       | IssueSeverity.Info => 3) * w issue.id
  | ImpactCategory.Both => 15 * w issue.id
  | _ => 0

/-- Reference scoring definition from the spec: start both accumulators at
100, subtract every issue's weighted penalty, clamp to `[0,100]`, floor. -/
def specCalculateScores (w : String → ℚ) (issues : List Issue) : SystemScores :=
  { health := clampScore (100 - (issues.map (specHealthPenalty w)).sum)
    speed := clampScore (100 - (issues.map (specSpeedPenalty w)).sum)
    health_delta := none
    speed_delta := none }

/-- The weight table of spec §4.2 read at face value in exact arithmetic
(`0.8` as `4/5`), with default 1. -/
def specDefaultWeights (id : String) : ℚ :=
  if id = "windows_update_pending" then 3/2
  else if id = "firewall_disabled" then 2
  else if id = "rdp_port_open" then 2
  else if id = "excessive_startup_items" then 4/5
  else 1

/-- An Info Performance issue whose id carries the `0.8` weight override. -/
def startupInfoIssue : Issue :=
  { id := "excessive_startup_items"
    severity := IssueSeverity.Info
    title := "Too many startup items"
    description := "Startup items slow the boot."
    impact_category := ImpactCategory.Performance
    fix := none }

/-! ### Checker capability and scanner engine (`lib.rs`) -/

/-- `CheckCategory` from `lib.rs`. -/
inductive CheckCategory where
  | Security
  | Performance
  | Privacy
  | Firmware
  | Threat
  | Compliance
deriving DecidableEq, Repr

/-- `ScanContext` from `lib.rs`. -/
structure ScanContext where
  options : ScanOptions

/-- The `Checker` trait object from `lib.rs`.  `run` returns
`Option (List Issue)`: `some issues` is a normal return of
`Vec<Issue>`, while `none` models a panic escaping the checker (the trait
offers no error channel, so an internal failure can only surface as a
panic).  `fix` embeds `fix(&self, issue_id, params) -> Result<FixResult,
String>`. -/
structure Checker where
  name : String
  category : CheckCategory
  run : ScanContext → Option (List Issue)
  fix : String → JsonValue → Except String FixResult

/-- `ScannerEngine` from `lib.rs`. -/
structure ScannerEngine where
  checkers : List Checker
  scoring_engine : ScoringEngine

/-- `ScannerEngine::new` from `lib.rs`. -/
def ScannerEngine.new : ScannerEngine :=
  { checkers := [], scoring_engine := ScoringEngine.default }

/-- `ScannerEngine::register` from `lib.rs`: appends to the ordered
checker collection. -/
def ScannerEngine.register (e : ScannerEngine) (c : Checker) : ScannerEngine :=
  { e with checkers := e.checkers ++ [c] }

/-- The `should_run` decision inside the checker loop of
`ScannerEngine::scan`: Security runs iff `options.security`, Performance
iff `options.performance`, every other category always runs. -/
def shouldRunChecker (c : Checker) (options : ScanOptions) : Bool :=
  match c.category with
  | CheckCategory.Security => options.security
  | CheckCategory.Performance => options.performance
  | _ => true

/-- The checker loop of `ScannerEngine::scan`: run every included checker
in registration order and concatenate the issues.  A panic in one
checker's `run` (`none`) propagates — the loop body calls `checker.run`
directly, with no `catch_unwind` in the source. -/
def runCheckers : List Checker → ScanContext → Option (List Issue)
  | [], _ => some []
  | c :: rest, ctx =>
      if shouldRunChecker c ctx.options then
        match c.run ctx with
        | none => none
        | some issues => (runCheckers rest ctx).map (fun more => issues ++ more)
      else
        runCheckers rest ctx

/-- `severity_score` from the sort key closure in `ScannerEngine::scan`:
Critical is 0, Warning 1, Info 2. -/
def severityScore : IssueSeverity → Nat
  | IssueSeverity.Critical => 0
  | IssueSeverity.Warning => 1
  | IssueSeverity.Info => 2

/-- Insert into a list sorted by severity rank, placing the new element
before the first entry whose rank is not strictly smaller.  Helper for
`sortIssues`. -/
def insertByRank (a : Issue) : List Issue → List Issue
  | [] => [a]
  | b :: bs =>
      if severityScore b.severity < severityScore a.severity then
        b :: insertByRank a bs
      else
        a :: b :: bs

/-- `all_issues.sort_by_key(severity_score)` from `ScannerEngine::scan`.
Rust's `sort_by_key` is documented as a stable sort; a stable sort by key
is a unique function of its input, embedded here as stable insertion
sort. -/
def sortIssues : List Issue → List Issue
  | [] => []
  | a :: rest => insertByRank a (sortIssues rest)

/-- `ScannerEngine::scan` from `lib.rs`.  The effectful ingredients of
the source — the freshly drawn UUID, the wall-clock timestamp and the
measured duration — are passed in as parameters.  The result is `none`
when some included checker's `run` panics, in which case no `ScanResult`
is produced (the panic unwinds out of `scan`). -/
def ScannerEngine.scan (e : ScannerEngine) (options : ScanOptions)
    (scan_id : String) (timestamp : Nat) (duration_ms : Nat) :
    Option ScanResult :=
  let ctx : ScanContext := { options := options }
  match runCheckers e.checkers ctx with
  | none => none
  | some all_issues =>
      let sorted := sortIssues all_issues
      some
        { scan_id := scan_id
          timestamp := timestamp
          duration_ms := duration_ms
          scores := e.scoring_engine.calculate_scores sorted
          issues := sorted }

/-- The dispatch loop of `ScannerEngine::fix_issue`: return the first
checker's `Ok` result (`if let Ok(result) = checker.fix(...)`), treating
every `Err` — whatever its message — as "keep probing"; if no checker
returns `Ok`, produce the aggregate not-found failure. -/
def fixDispatch (action_id : String) (params : JsonValue) :
    List Checker → FixResult
  | [] => FixResult.mkFailure ("No handler found for action: " ++ action_id)
  | c :: rest =>
      match c.fix action_id params with
      | Except.ok result => result
      | Except.error _ => fixDispatch action_id params rest

/-- `ScannerEngine::fix_issue` from `lib.rs`. -/
def ScannerEngine.fix_issue (e : ScannerEngine) (action_id : String)
    (params : JsonValue) : FixResult :=
  fixDispatch action_id params e.checkers

/-! ### License gate (`agent/src/license.rs`)

`chrono::Utc::now().timestamp()` becomes an explicit `now : Int`
parameter; the license file becomes an explicit `Option License` value
(`none` = no file on disk).  I/O and parse failures of the file are
outside this model. -/

/-- `LicenseTier` from `license.rs`. -/
inductive LicenseTier where
  | Free
  | Trial
  | Pro
deriving DecidableEq, Repr

/-- `ProFeature` from `license.rs`. -/
inductive ProFeature where
  | Automation
deriving DecidableEq, Repr

/-- `License` from `license.rs` (`i64` timestamps as `Int`). -/
structure License where
  key : Option String
  tier : LicenseTier
  activated_at : Int
  expires_at : Option Int
deriving DecidableEq, Repr

/-- `License::default` from `license.rs` (fresh Free license activated
now). -/
def License.defaultAt (now : Int) : License :=
  { key := none
    tier := LicenseTier.Free
    activated_at := now
    expires_at := none }

/-- `License::is_trial_expired` from `license.rs`. -/
def License.is_trial_expired (l : License) (now : Int) : Bool :=
  if l.tier ≠ LicenseTier.Trial then
    false
  else
    match l.expires_at with
    | some expires => now > expires
    | none => false

/-- `License::effective_tier` from `license.rs`. -/
def License.effective_tier (l : License) (now : Int) : LicenseTier :=
  if l.tier = LicenseTier.Trial ∧ l.is_trial_expired now then
    LicenseTier.Free
  else
    l.tier

/-- `License::has_pro_feature` from `license.rs`. -/
def License.has_pro_feature (l : License) (now : Int) (feature : ProFeature) :
    Bool :=
  let tier := l.effective_tier now
  match feature with
  | ProFeature.Automation =>
      tier = LicenseTier.Pro ∨ tier = LicenseTier.Trial

/-- `LicenseManager::load` from `license.rs`: the stored file when
present, otherwise the default Free license. -/
def LicenseManager.load (stored : Option License) (now : Int) : License :=
  stored.getD (License.defaultAt now)

/-- `LicenseManager::start_trial` from `license.rs`.  The pair returned
on success is `(the license handed back, the stored file afterwards)`;
`self.save` is modelled by returning the updated store. -/
def LicenseManager.start_trial (stored : Option License) (now : Int) :
    Except String (License × Option License) :=
  let current := LicenseManager.load stored now
  if current.tier = LicenseTier.Pro then
    Except.error "Pro license is already active"
  else
    let existing := LicenseManager.load stored now
    if existing.tier = LicenseTier.Trial then
      if existing.is_trial_expired now then
        Except.error "Trial period has expired. Please upgrade to Pro."
      else
        Except.ok (existing, stored)
    else
      let license : License :=
        { key := none
          tier := LicenseTier.Trial
          activated_at := now
          expires_at := some (now + 14 * 86400) }
      Except.ok (license, some license)

/-! ### License key validation (`license.rs`) -/

/-- Rust `char::to_digit(36)`: `0`-`9` (code points 48-57) map to their
value, letters of either case (97-122, 65-90) to `10`-`35`, everything
else to `none`. -/
def charToDigit36 (c : Char) : Option Nat :=
  if 48 ≤ c.toNat ∧ c.toNat ≤ 57 then some (c.toNat - 48)
  else if 97 ≤ c.toNat ∧ c.toNat ≤ 122 then some (c.toNat - 97 + 10)
  else if 65 ≤ c.toNat ∧ c.toNat ≤ 90 then some (c.toNat - 65 + 10)
  else none

/-- Rust `c.is_alphanumeric() && c.is_ascii()` from `validate_key`, which
on any `char` is exactly "ASCII digit or ASCII letter" (code points 48-57,
97-122, 65-90). -/
def isAsciiAlnum (c : Char) : Bool :=
  (48 ≤ c.toNat ∧ c.toNat ≤ 57) ∨ (97 ≤ c.toNat ∧ c.toNat ≤ 122) ∨
    (65 ≤ c.toNat ∧ c.toNat ≤ 90)

/-- UTF-8 width of one scalar value (1 to 4 bytes). -/
def charUtf8Size (c : Char) : Nat :=
  if c.toNat < 128 then 1
  else if c.toNat < 2048 then 2
  else if c.toNat < 65536 then 3
  else 4

/-- Rust `str::len` (UTF-8 byte length) of a segment, given as its
character sequence. -/
def strBytes (l : List Char) : Nat := (l.map charUtf8Size).sum

/-- Rust `str::split` over the character sequence of a string: cut at
every separator, keeping empty pieces (so `"a--b"` gives three pieces and
`""` gives one empty piece), exactly as `key.split('-').collect()` does in
`validate_key`. -/
def splitChars (p : Char → Bool) : List Char → List (List Char)
  | [] => [[]]
  | c :: cs =>
      if p c then
        [] :: splitChars p cs
      else
        match splitChars p cs with
        | [] => [[c]]
        | seg :: rest => (c :: seg) :: rest

/-- `LicenseManager::verify_checksum` from `license.rs`: join the payload
segments, sum the base-36 digit values of their characters
(`filter_map(|c| c.to_digit(36))`), and compare with the trailing
character of the checksum segment modulo 36. -/
def verify_checksum (segments : List (List Char)) (checksum_segment : List Char) :
    Bool :=
  let combined := segments.flatten
  let sum := (combined.filterMap charToDigit36).sum
  match checksum_segment.getLast? with
  | some last_char =>
      match charToDigit36 last_char with
      | some expected => sum % 36 = expected
      | none => false
  | none => false

/-- `LicenseManager::validate_key` from `license.rs`: split on dashes,
require five segments, the literal `"HSPC"` prefix, four 4-byte
all-alphanumeric segments, and the checksum. -/
def validate_key (key : String) : Bool :=
  match splitChars (fun c => c = '-') key.data with
  | [p0, p1, p2, p3, p4] =>
      p0 = ['H', 'S', 'P', 'C'] &&
      ([p1, p2, p3, p4].all fun seg =>
        strBytes seg = 4 && seg.all isAsciiAlnum) &&
      verify_checksum [p1, p2, p3] p4
  | _ => false

/-- Spec-side segment requirement: exactly 4 characters, all ASCII
alphanumeric. -/
def segSpecOk (s : List Char) : Prop :=
  s.length = 4 ∧ ∀ c ∈ s, isAsciiAlnum c = true

/-- The acceptance condition of `validate_key` as the specification words
it: exactly five dash-separated segments, the first `"HSPC"`, the next
three and the last each 4 alphanumeric characters, and the last character
of the last segment, read as a base-36 digit, equal to the sum of the
base-36 digit values of all payload characters modulo 36. -/
def keySpecValid (key : String) : Prop :=
  ∃ p1 p2 p3 p4 : List Char,
    splitChars (fun c => c = '-') key.data =
      [['H', 'S', 'P', 'C'], p1, p2, p3, p4] ∧
    segSpecOk p1 ∧ segSpecOk p2 ∧ segSpecOk p3 ∧ segSpecOk p4 ∧
    ∃ last d, p4.getLast? = some last ∧ charToDigit36 last = some d ∧
      ((p1 ++ p2 ++ p3).map (fun c => (charToDigit36 c).getD 0)).sum % 36 = d

/-! ### Persisted store boundary (`agent/src/db.rs`) -/

/-- `AutomationSettings` from `db.rs`. -/
structure AutomationSettings where
  automation_enabled : Bool
  run_schedule : String
  auto_fix_enabled : Bool
deriving DecidableEq, Repr

/-- `AutomationSettings::default` from `db.rs`. -/
def AutomationSettings.default : AutomationSettings :=
  { automation_enabled := false
    run_schedule := "weekly"
    auto_fix_enabled := false }

/-- One row of the `settings` table as read by
`Db::get_automation_settings` (SQLite integers are `i64`). -/
structure SettingsRow where
  automation_enabled : Int
  run_schedule : String
  auto_fix_enabled : Int
deriving DecidableEq, Repr

/-- `Db::get_automation_settings` from `db.rs`: the row with `id = 1`
when present (integers read as booleans via `!= 0`), otherwise
`AutomationSettings::default` (`.optional()` + `unwrap_or_default`).
Query errors propagate in the source and are outside this model. -/
def Db.get_automation_settings (row : Option SettingsRow) :
    AutomationSettings :=
  match row with
  | some r =>
      { automation_enabled := r.automation_enabled ≠ 0
        run_schedule := r.run_schedule
        auto_fix_enabled := r.auto_fix_enabled ≠ 0 }
  | none => AutomationSettings.default

/-! ### Automation scheduler (`agent/src/daemon.rs`)

The store reads (`Db::get_automation_settings`,
`Db::last_scan_timestamp`) and the license file become explicit
parameters; timestamps live in `Int` (the store keeps them as `i64`, the
daemon compares them as `u64`; all values in range agree). -/

/-- `required_interval_seconds` from `daemon.rs`. -/
def required_interval_seconds (schedule : String) : Int :=
  match schedule with
  | "daily" => 86400
  | "weekly" => 7 * 86400
  | "monthly" => 30 * 86400
  | _ => 7 * 86400

/-- `should_run_scan` from `daemon.rs` (its `Db` errors propagate in the
source and are outside this model). -/
def should_run_scan (settings : AutomationSettings)
    (last_scan : Option Int) (now : Int) : Bool :=
  if !settings.automation_enabled then
    false
  else
    match last_scan with
    | some ts => now ≥ ts + required_interval_seconds settings.run_schedule
    | none => true

/-- How far one `run_automation_iteration` call from `daemon.rs` gets
before returning. -/
inductive IterationOutcome where
  /-- Returned at the `automation_enabled` check, before the license file
  is touched. -/
  | SkippedDisabled
  /-- Returned at the `has_pro_feature(Automation)` check. -/
  | SkippedNoAutomationFeature
  /-- Returned because no scheduled scan was due. -/
  | SkippedNotDue
  /-- Reached the scan-and-persist step. -/
  | RanScan
deriving DecidableEq, Repr

/-- The gate structure of `run_automation_iteration` from `daemon.rs`:
settings check, then license check, then due check, then the scan.  The
`license` argument stands for what `LicenseManager::load` would return;
on the disabled path the source returns before constructing the
`LicenseManager`, which the first branch mirrors by ignoring
`license`. -/
def run_automation_iteration (settings : AutomationSettings)
    (license : License) (last_scan : Option Int) (now : Int) :
    IterationOutcome :=
  if !settings.automation_enabled then
    IterationOutcome.SkippedDisabled
  else if !(license.has_pro_feature now ProFeature.Automation) then
    IterationOutcome.SkippedNoAutomationFeature
  else if !(should_run_scan settings last_scan now) then
    IterationOutcome.SkippedNotDue
  else
    IterationOutcome.RanScan

/-! ### Concrete checker instances used as inputs below -/

/-- The default `Checker::fix` implementation from the trait in `lib.rs`:
`Err(format!("Fix not implemented for {}", issue_id))`. -/
def Checker.defaultFix (issue_id : String) (_params : JsonValue) :
    Except String FixResult :=
  Except.error ("Fix not implemented for " ++ issue_id)

/-- The manual-instructions error `NetworkChecker::fix` returns for a
recognized DNS action on non-Windows targets (`checkers/network.rs`). -/
def dnsFixInstructions : String :=
  "DNS auto-fix is only available on Windows. To manually fix:\n" ++
  "Linux: Edit /etc/resolv.conf and add 'nameserver 1.1.1.1'\n" ++
  "macOS: System Preferences > Network > Advanced > DNS > Add 1.1.1.1"

/-- `NetworkChecker::fix` from `checkers/network.rs`, as compiled for
non-Windows targets: the two DNS actions are recognized but their
remediation fails with an `Err` carrying manual instructions; anything
else is refused with the generic message.  (On Windows the remediation
shells out to `netsh`; its failure paths are likewise `Err`s.) -/
def NetworkChecker.fix (issue_id : String) (_params : JsonValue) :
    Except String FixResult :=
  if issue_id = "network_dns_failure" ∨ issue_id = "network_slow_dns" then
    Except.error dnsFixInstructions
  else
    Except.error "This issue cannot be fixed automatically."

/-- `NetworkChecker` from `checkers/network.rs`.  Its `run` probes the
live network, so the probe outcome is abstracted as a parameter; the fix
dispatch under scrutiny never invokes `run`. -/
def networkChecker (probe : ScanContext → Option (List Issue)) : Checker :=
  { name := "Network & Speed Checker"
    category := CheckCategory.Performance
    run := probe
    fix := NetworkChecker.fix }

/-- An engine with only the network checker registered (its probe finds
nothing). -/
def networkEngine : ScannerEngine :=
  ScannerEngine.new.register (networkChecker fun _ => some [])

/-- A Critical Security issue whose id carries no weight override. -/
def sampleSecurityIssue : Issue :=
  { id := "sample_security_issue"
    severity := IssueSeverity.Critical
    title := "Sample security finding"
    description := "A security issue used as a concrete test vector."
    impact_category := ImpactCategory.Security
    fix := none }

/-- An Info Performance issue whose id carries no weight override. -/
def samplePerformanceIssue : Issue :=
  { id := "sample_performance_issue"
    severity := IssueSeverity.Info
    title := "Sample performance finding"
    description := "A performance issue used as a concrete test vector."
    impact_category := ImpactCategory.Performance
    fix := none }

/-- A checker whose `run` panics (models e.g. an internal `unwrap` on
`None`); no `catch_unwind` in `ScannerEngine::scan` stands between such a
panic and the caller. -/
def crashingChecker : Checker :=
  { name := "crashing_checker"
    category := CheckCategory.Privacy
    run := fun _ => none
    fix := Checker.defaultFix }

/-- A well-behaved checker reporting one Security issue. -/
def reportingChecker : Checker :=
  { name := "reporting_checker"
    category := CheckCategory.Security
    run := fun _ => some [sampleSecurityIssue]
    fix := Checker.defaultFix }

/-- A well-behaved Performance checker reporting one issue. -/
def performanceChecker : Checker :=
  { name := "performance_checker"
    category := CheckCategory.Performance
    run := fun _ => some [samplePerformanceIssue]
    fix := Checker.defaultFix }

/-- An engine whose first registered checker panics during `run` and
whose second is well-behaved. -/
def crashDemoEngine : ScannerEngine :=
  (ScannerEngine.new.register crashingChecker).register reportingChecker

/-- The same engine without the crashing checker. -/
def healthyDemoEngine : ScannerEngine :=
  ScannerEngine.new.register reportingChecker

/-- An engine with one Security and one Performance checker. -/
def mixedEngine : ScannerEngine :=
  (ScannerEngine.new.register reportingChecker).register performanceChecker

/-- The fresh 14-day trial `start_trial` builds: activated `now`, expiring
exactly `14 * 86400` seconds later. -/
def freshTrial (now : Int) : License :=
  { key := none
    tier := LicenseTier.Trial
    activated_at := now
    expires_at := some (now + 14 * 86400) }

/-- A stored trial license that expired at time 100. -/
def expiredTrialStore : Option License :=
  some
    { key := none
      tier := LicenseTier.Trial
      activated_at := 0
      expires_at := some 100 }

/-! ## Theorems -/

/-- Two dyadics compare in `ℚ` exactly as their significands aligned at
any common lower exponent compare in `ℤ`. -/
theorem dyadic_lt_iff (m1 e1 m2 e2 k : Int) (h1 : k ≤ e1) (h2 : k ≤ e2) :
    (m1 : ℚ) * 2 ^ e1 < (m2 : ℚ) * 2 ^ e2 ↔
      m1 * 2 ^ (e1 - k).toNat < m2 * 2 ^ (e2 - k).toNat := by
  have hsplit : ∀ e : Int, k ≤ e →
      (2 : ℚ) ^ e = 2 ^ (e - k).toNat * 2 ^ k := by
    intro e he
    rw [← zpow_natCast (2 : ℚ) (e - k).toNat, ← zpow_add₀ (by norm_num : (2:ℚ) ≠ 0)]
    congr 1
    omega
  rw [hsplit e1 h1, hsplit e2 h2, ← mul_assoc, ← mul_assoc,
    mul_lt_mul_right (a := (2:ℚ) ^ k) (by positivity)]
  constructor
  · intro h
    exact_mod_cast h
  · intro h
    exact_mod_cast h

/-- `F32.blt` decides the strict order on values. -/
theorem F32.blt_iff (a b : F32) : F32.blt a b = true ↔ a.toRat < b.toRat := by
  unfold F32.blt F32.toRat
  rw [decide_eq_true_eq]
  exact (dyadic_lt_iff a.m a.e b.m b.e (Min.min a.e b.e)
    (min_le_left a.e b.e) (min_le_right a.e b.e)).symm

/-- `f32::max` computes the value-level maximum. -/
theorem F32.max_toRat (a b : F32) :
    (F32.max a b).toRat = Max.max a.toRat b.toRat := by
  unfold F32.max
  cases h : F32.blt a b with
  | true =>
      have := (F32.blt_iff a b).mp h
      simp [max_eq_right (le_of_lt this)]
  | false =>
      have : ¬ a.toRat < b.toRat := by
        intro hlt
        rw [(F32.blt_iff a b).mpr hlt] at h
        cases h
      simp [max_eq_left (le_of_not_lt this)]

/-- `f32::min` computes the value-level minimum. -/
theorem F32.min_toRat (a b : F32) :
    (F32.min a b).toRat = Min.min a.toRat b.toRat := by
  unfold F32.min
  cases h : F32.blt b a with
  | true =>
      have := (F32.blt_iff b a).mp h
      simp [min_eq_right (le_of_lt this)]
  | false =>
      have : ¬ b.toRat < a.toRat := by
        intro hlt
        rw [(F32.blt_iff b a).mpr hlt] at h
        cases h
      simp [min_eq_left (le_of_not_lt this)]

/-- On a positive value, the `as u8` truncation is the floor of the
value. -/
theorem F32.toTruncNat_eq (x : F32) (hm : 0 < x.m) :
    x.toTruncNat = ⌊x.toRat⌋.toNat := by
  unfold F32.toTruncNat F32.toRat
  rw [if_neg (by omega)]
  by_cases he : 0 ≤ x.e
  · rw [if_pos he]
    have hval : (x.m : ℚ) * 2 ^ x.e = ((x.m * 2 ^ x.e.toNat : Int) : ℚ) := by
      push_cast
      rw [← zpow_natCast (2:ℚ) x.e.toNat, Int.toNat_of_nonneg he]
    rw [hval, Int.floor_intCast]
    have hcast : x.m * 2 ^ x.e.toNat =
        ((x.m.toNat * 2 ^ x.e.toNat : Nat) : Int) := by
      push_cast [Int.toNat_of_nonneg (le_of_lt hm)]
      ring
    rw [hcast, Int.toNat_natCast]
  · rw [if_neg he]
    have hval : (x.m : ℚ) * 2 ^ x.e =
        (x.m : ℚ) / ((2 ^ (-x.e).toNat : Nat) : ℚ) := by
      push_cast
      rw [div_eq_mul_inv, ← zpow_natCast (2:ℚ) (-x.e).toNat, ← zpow_neg]
      congr 1
      congr 1
      omega
    rw [hval, Rat.floor_intCast_div_natCast]
    have hm' : x.m = ((x.m.toNat : Nat) : Int) :=
      (Int.toNat_of_nonneg (le_of_lt hm)).symm
    rw [hm', ← Int.natCast_div, Int.toNat_natCast, Int.toNat_natCast]

/-- Whatever the value, the clamped truncation is at most 100. -/
theorem clampTrunc_le (x : F32) : clampTrunc x ≤ 100 := by
  unfold clampTrunc
  set y := F32.min (F32.max x F32.zero) F32.hundred with hy
  have hle : y.toRat ≤ 100 := by
    rw [hy, F32.min_toRat]
    have : F32.hundred.toRat = 100 := by
      norm_num [F32.toRat, F32.hundred]
    rw [this]
    exact min_le_right _ _
  by_cases hm : y.m ≤ 0
  · unfold F32.toTruncNat
    rw [if_pos hm]
    omega
  · push_neg at hm
    rw [F32.toTruncNat_eq y hm]
    have h1 : ⌊y.toRat⌋ ≤ ⌊(100:ℚ)⌋ := Int.floor_le_floor hle
    have h2 : ⌊(100:ℚ)⌋ = 100 := by norm_num
    omega

/-- C1 counterexample: five Info Performance issues with id
`excessive_startup_items` (stored weight `0.8f32`).  The program's `f32`
evaluation reaches the accumulator `11534335 * 2 ^ (-17) =
87.99999237…` and returns speed 87, while the reference scoring
definition of the claim — exact arithmetic over the table read as `0.8`
— gives `100 - 5 * (3 * 0.8) = 88`; so `calculate_scores` does not equal
the reference definition. -/
theorem calculate_scores_counterexample :
    (ScoringEngine.default.calculate_scores
      (List.replicate 5 startupInfoIssue)).speed = 87
    ∧ (specCalculateScores specDefaultWeights
        (List.replicate 5 startupInfoIssue)).speed = 88 := by
  constructor
  · decide
  · show clampScore (100 -
      ((List.replicate 5 startupInfoIssue).map
        (specSpeedPenalty specDefaultWeights)).sum) = 88
    have hw : specDefaultWeights "excessive_startup_items" = 4/5 := by
      unfold specDefaultWeights
      rw [if_neg (by decide), if_neg (by decide), if_neg (by decide),
        if_pos rfl]
    have hpen : specSpeedPenalty specDefaultWeights startupInfoIssue =
        3 * (4/5) := by
      simp [specSpeedPenalty, startupInfoIssue, hw]
    have hsum : ((List.replicate 5 startupInfoIssue).map
        (specSpeedPenalty specDefaultWeights)).sum = 12 := by
      simp [List.replicate, hpen]
      norm_num
    rw [hsum]
    unfold clampScore
    norm_num
    rfl

/-- C1 (amended): `calculate_scores` follows the reference recurrence in
binary32 arithmetic — each weighted penalty and each subtraction is one
`f32` rounding — so its floored result can differ from the
exact-arithmetic reference (see the counterexample).  The remaining
consequences of the claim hold: for every issue list both returned
scores lie in `[0,100]` (naturals bounded by 100), the empty list yields
exactly health 100 and speed 100, and a single Critical Security issue
whose weight is the stored `1.0` yields health 80 and speed 100 (these
products and differences are exactly representable, so no rounding
occurs on that input). -/
theorem calculate_scores_correct (e : ScoringEngine) (issues : List Issue) :
    (e.calculate_scores issues).health ≤ 100
    ∧ (e.calculate_scores issues).speed ≤ 100
    ∧ e.calculate_scores [] =
        { health := 100, speed := 100, health_delta := none, speed_delta := none }
    ∧ ∀ i : Issue, i.severity = IssueSeverity.Critical →
        i.impact_category = ImpactCategory.Security → e.weight i.id = F32.one →
        e.calculate_scores [i] =
          { health := 80, speed := 100, health_delta := none, speed_delta := none }
    := by
  refine ⟨clampTrunc_le _, clampTrunc_le _, rfl, ?_⟩
  intro i h1 h2 h3
  simp only [ScoringEngine.calculate_scores, List.foldl_cons, List.foldl_nil,
    scoreStep, h1, h2, h3]
  decide

/-- Witness for C1: the default engine carries no weight override for the
sample issue (so its weight is the stored `1.0`), and scoring that single
Critical Security issue yields health 80, speed 100. -/
theorem calculate_scores_correct_witness :
    ScoringEngine.default.weight sampleSecurityIssue.id = F32.one
    ∧ ScoringEngine.default.calculate_scores [sampleSecurityIssue] =
      { health := 80, speed := 100, health_delta := none, speed_delta := none } := by
  refine ⟨by decide, ?_⟩
  exact (calculate_scores_correct ScoringEngine.default
    [sampleSecurityIssue]).2.2.2 sampleSecurityIssue rfl rfl (by decide)

/-- C2 (evidence of the divergence): a registered checker whose `run`
panics is not isolated by `ScannerEngine::scan` — the panic propagates
and the whole scan aborts with no `ScanResult`, even though a later
well-behaved checker would have reported an issue.  The same engine
without the panicking checker completes its scan. -/
theorem scan_aborts_on_checker_panic :
    crashDemoEngine.scan ScanOptions.default "scan-0001" 10 25 = none
    ∧ (healthyDemoEngine.scan ScanOptions.default "scan-0001" 10 25).isSome
        = true := by
  exact ⟨rfl, by decide⟩

/-- Skipped checkers contribute nothing: with `performance = false` the
checker loop computes the same thing whether or not Performance-category
checkers are registered at all. -/
theorem runCheckers_skip_performance (options : ScanOptions)
    (hperf : options.performance = false) :
    ∀ cs : List Checker,
      runCheckers cs { options := options } =
        runCheckers
          (cs.filter fun c => c.category ≠ CheckCategory.Performance)
          { options := options } := by
  intro cs
  induction cs with
  | nil => rfl
  | cons c rest ih =>
      by_cases hc : c.category = CheckCategory.Performance
      · have h1 : shouldRunChecker c options = false := by
          simp [shouldRunChecker, hc, hperf]
        simp [runCheckers, h1, List.filter_cons, hc, ih]
      · cases hr : c.run { options := options } with
        | none =>
            cases hsr : shouldRunChecker c options <;>
              simp [runCheckers, List.filter_cons, hc, hr, hsr, ih]
        | some issues =>
            cases hsr : shouldRunChecker c options <;>
              simp [runCheckers, List.filter_cons, hc, hr, hsr, ih]

/-- C7: a registered checker is invoked exactly when its category permits
it under the options (Security iff `options.security`, Performance iff
`options.performance`, anything else always); consequently, a scan with
`options.performance = false` is identical — issues, scores and all — to
the same scan with every Performance-category checker removed, so no
Performance checker contributes any issue, regardless of what its `run`
would return. -/
theorem scan_category_gating (e : ScannerEngine) (options : ScanOptions) :
    (∀ c : Checker,
      shouldRunChecker c options = true ↔
        (c.category = CheckCategory.Security ∧ options.security = true) ∨
        (c.category = CheckCategory.Performance ∧ options.performance = true) ∨
        (c.category ≠ CheckCategory.Security ∧
          c.category ≠ CheckCategory.Performance))
    ∧ (options.performance = false →
        ∀ (scan_id : String) (ts d : Nat),
          e.scan options scan_id ts d =
            ScannerEngine.scan
              { e with checkers := e.checkers.filter (fun c => c.category ≠ CheckCategory.Performance) }
              options scan_id ts d) := by
  constructor
  · intro c
    cases hc : c.category <;> simp [shouldRunChecker, hc]
  · intro hperf scan_id ts d
    unfold ScannerEngine.scan
    dsimp only
    rw [runCheckers_skip_performance options hperf e.checkers]

/-- Witness for C7: with `performance` off, scanning the mixed engine is
the same as scanning it with its Performance checker deleted. -/
theorem scan_category_gating_witness :
    mixedEngine.scan
      { security := true, performance := false, quick := false,
        exclude_apps := false, exclude_startup := false }
      "scan-w7" 3 4 =
    ScannerEngine.scan
      { mixedEngine with checkers := mixedEngine.checkers.filter (fun c => c.category ≠ CheckCategory.Performance) }
      { security := true, performance := false, quick := false,
        exclude_apps := false, exclude_startup := false }
      "scan-w7" 3 4 :=
  (scan_category_gating mixedEngine _).2 rfl "scan-w7" 3 4

/-- Membership in an insertion is membership in the parts. -/
theorem mem_insertByRank (a x : Issue) :
    ∀ l : List Issue, x ∈ insertByRank a l ↔ x = a ∨ x ∈ l := by
  intro l
  induction l with
  | nil => simp [insertByRank]
  | cons b bs ih =>
      unfold insertByRank
      by_cases hb : severityScore b.severity < severityScore a.severity
      · simp only [if_pos hb, List.mem_cons, ih]
        tauto
      · simp only [if_neg hb, List.mem_cons]

/-- Inserting into a rank-sorted list keeps it rank-sorted. -/
theorem pairwise_insertByRank (a : Issue) :
    ∀ l : List Issue,
      l.Pairwise
        (fun x y => severityScore x.severity ≤ severityScore y.severity) →
      (insertByRank a l).Pairwise
        (fun x y => severityScore x.severity ≤ severityScore y.severity) := by
  intro l
  induction l with
  | nil => intro _; simp [insertByRank]
  | cons b bs ih =>
      intro h
      rw [List.pairwise_cons] at h
      obtain ⟨hb, hbs⟩ := h
      unfold insertByRank
      by_cases hlt : severityScore b.severity < severityScore a.severity
      · rw [if_pos hlt, List.pairwise_cons]
        refine ⟨?_, ih hbs⟩
        intro x hx
        rcases (mem_insertByRank a x bs).mp hx with rfl | hxbs
        · omega
        · exact hb x hxbs
      · rw [if_neg hlt, List.pairwise_cons]
        constructor
        · intro x hx
          rcases List.mem_cons.mp hx with rfl | hxbs
          · omega
          · have := hb x hxbs
            omega
        · exact List.pairwise_cons.mpr ⟨hb, hbs⟩

/-- The result of `sortIssues` is sorted by severity rank. -/
theorem sortIssues_pairwise :
    ∀ l : List Issue,
      (sortIssues l).Pairwise
        (fun x y => severityScore x.severity ≤ severityScore y.severity) := by
  intro l
  induction l with
  | nil => simp [sortIssues]
  | cons a rest ih => exact pairwise_insertByRank a (sortIssues rest) ih

/-- Inserting commutes with filtering one severity rank: the new element
lands in front of the rank class when it belongs to it, and classes of
other ranks are untouched. -/
theorem filter_insertByRank (a : Issue) (r : Nat) :
    ∀ l : List Issue,
      (insertByRank a l).filter (fun i => severityScore i.severity = r) =
        if severityScore a.severity = r then
          a :: l.filter (fun i => severityScore i.severity = r)
        else
          l.filter (fun i => severityScore i.severity = r) := by
  intro l
  induction l with
  | nil =>
      by_cases ha : severityScore a.severity = r <;>
        simp [insertByRank, List.filter, ha]
  | cons b bs ih =>
      unfold insertByRank
      by_cases hlt : severityScore b.severity < severityScore a.severity
      · rw [if_pos hlt]
        by_cases ha : severityScore a.severity = r
        · have hbr : ¬ severityScore b.severity = r := by omega
          simp [List.filter_cons, ha, hbr, ih]
        · by_cases hbr : severityScore b.severity = r <;>
            simp [List.filter_cons, ha, hbr, ih]
      · rw [if_neg hlt]
        by_cases ha : severityScore a.severity = r <;>
          by_cases hbr : severityScore b.severity = r <;>
            simp [List.filter_cons, ha, hbr]

/-- Stability of `sortIssues`: each severity class comes out in its
original relative order (the filter by rank is unchanged). -/
theorem sortIssues_stable (r : Nat) :
    ∀ l : List Issue,
      (sortIssues l).filter (fun i => severityScore i.severity = r) =
        l.filter (fun i => severityScore i.severity = r) := by
  intro l
  induction l with
  | nil => rfl
  | cons a rest ih =>
      show (insertByRank a (sortIssues rest)).filter _ = _
      rw [filter_insertByRank a r (sortIssues rest), ih]
      by_cases ha : severityScore a.severity = r <;>
        simp [List.filter_cons, ha]

/-- C8: every `ScanResult` the engine produces carries the concatenated
checker issues (registration order) sorted stably by severity rank: the
output is non-decreasing in rank (Critical 0 < Warning 1 < Info 2), and
within each rank the issues keep the relative order in which the checker
loop produced them. -/
theorem scan_issues_sorted (e : ScannerEngine) (options : ScanOptions)
    (scan_id : String) (ts d : Nat) (result : ScanResult)
    (hscan : e.scan options scan_id ts d = some result) :
    ∃ raw : List Issue,
      runCheckers e.checkers { options := options } = some raw ∧
      result.issues = sortIssues raw ∧
      result.issues.Pairwise
        (fun a b => severityScore a.severity ≤ severityScore b.severity) ∧
      ∀ r : Nat,
        result.issues.filter (fun i => severityScore i.severity = r) =
          raw.filter (fun i => severityScore i.severity = r) := by
  unfold ScannerEngine.scan at hscan
  dsimp only at hscan
  cases hr : runCheckers e.checkers { options := options } with
  | none => rw [hr] at hscan; cases hscan
  | some raw =>
      rw [hr] at hscan
      have hres : result =
          { scan_id := scan_id, timestamp := ts, duration_ms := d,
            scores := e.scoring_engine.calculate_scores (sortIssues raw),
            issues := sortIssues raw } := (Option.some.inj hscan).symm
      subst hres
      exact ⟨raw, rfl, rfl, sortIssues_pairwise raw,
        fun r => sortIssues_stable r raw⟩

/-- Witness for C8: the mixed engine's scan produces a result, and the
theorem applies to it. -/
theorem scan_issues_sorted_witness :
    ∃ raw : List Issue,
      runCheckers mixedEngine.checkers { options := ScanOptions.default } =
        some raw ∧
      (sortIssues [sampleSecurityIssue, samplePerformanceIssue]) =
        sortIssues raw ∧
      (sortIssues [sampleSecurityIssue, samplePerformanceIssue]).Pairwise
        (fun a b => severityScore a.severity ≤ severityScore b.severity) ∧
      ∀ r : Nat,
        (sortIssues [sampleSecurityIssue, samplePerformanceIssue]).filter
            (fun i => severityScore i.severity = r) =
          raw.filter (fun i => severityScore i.severity = r) :=
  scan_issues_sorted mixedEngine ScanOptions.default "scan-w8" 3 4
    { scan_id := "scan-w8", timestamp := 3, duration_ms := 4,
      scores := ScoringEngine.default.calculate_scores
        (sortIssues [sampleSecurityIssue, samplePerformanceIssue]),
      issues := sortIssues [sampleSecurityIssue, samplePerformanceIssue] }
    rfl

/-- When every checker's `fix` answers `Err`, the dispatch loop falls
through to the aggregate not-found failure. -/
theorem fixDispatch_all_err (action_id : String) (params : JsonValue) :
    ∀ cs : List Checker,
      (∀ c ∈ cs, ∃ msg, c.fix action_id params = Except.error msg) →
      fixDispatch action_id params cs =
        FixResult.mkFailure ("No handler found for action: " ++ action_id) := by
  intro cs
  induction cs with
  | nil => intro _; rfl
  | cons c rest ih =>
      intro h
      obtain ⟨msg, hmsg⟩ := h c (List.mem_cons_self c rest)
      have hrest := ih (fun c' hc' => h c' (List.mem_cons_of_mem c hc'))
      simp [fixDispatch, hmsg, hrest]

/-- The first checker (in registration order) whose `fix` answers `Ok`
determines the dispatch result. -/
theorem fixDispatch_first_ok (action_id : String) (params : JsonValue)
    (result : FixResult) :
    ∀ (pre : List Checker) (c : Checker) (post : List Checker),
      (∀ c' ∈ pre, ∃ msg, c'.fix action_id params = Except.error msg) →
      c.fix action_id params = Except.ok result →
      fixDispatch action_id params (pre ++ c :: post) = result := by
  intro pre
  induction pre with
  | nil =>
      intro c post _ hok
      simp [fixDispatch, hok]
  | cons p rest ih =>
      intro c post hpre hok
      obtain ⟨msg, hmsg⟩ := hpre p (List.mem_cons_self p rest)
      have := ih c post (fun c' hc' => hpre c' (List.mem_cons_of_mem p hc')) hok
      simp [fixDispatch, hmsg, this]

/-- C3 counterexample: for the action id `"network_dns_failure"` the
network checker recognizes the action and its remediation fails with an
`Err` carrying its own message, yet `fix_issue` on an engine containing
exactly that checker reports the aggregate "No handler found" failure —
the owning checker's failure is not surfaced as the result. -/
theorem fix_issue_counterexample :
    NetworkChecker.fix "network_dns_failure" { entries := [] } =
      Except.error dnsFixInstructions
    ∧ networkEngine.fix_issue "network_dns_failure" { entries := [] } =
        FixResult.mkFailure "No handler found for action: network_dns_failure"
    ∧ (networkEngine.fix_issue "network_dns_failure"
        { entries := [] }).message ≠ dnsFixInstructions := by
  refine ⟨rfl, rfl, ?_⟩
  decide

/-- C3 (amended): `fix_issue` returns the result of the first checker, in
registration order, whose `fix` returns `Ok`; when every checker's `fix`
returns `Err` — which covers both "nobody recognizes the action" (the
default implementation's not-implemented `Err`) and "the owning checker
recognized it but its remediation failed with an `Err`" — it returns,
without panicking, a failure `FixResult` whose message says no handler
was found for the action; a recognized-but-failed remediation signalled
through `Err` is thus answered by the not-found failure rather than its
own. -/
theorem fix_issue_dispatch (e : ScannerEngine) (action_id : String)
    (params : JsonValue) :
    ((∀ c ∈ e.checkers, ∃ msg, c.fix action_id params = Except.error msg) →
      e.fix_issue action_id params =
        FixResult.mkFailure ("No handler found for action: " ++ action_id))
    ∧ ∀ (pre : List Checker) (c : Checker) (post : List Checker),
        e.checkers = pre ++ c :: post →
        (∀ c' ∈ pre, ∃ msg, c'.fix action_id params = Except.error msg) →
        ∀ result : FixResult, c.fix action_id params = Except.ok result →
          e.fix_issue action_id params = result := by
  constructor
  · intro h
    exact fixDispatch_all_err action_id params e.checkers h
  · intro pre c post hsplit hpre result hok
    unfold ScannerEngine.fix_issue
    rw [hsplit]
    exact fixDispatch_first_ok action_id params result pre c post hpre hok

/-- Witness for C3: on the network-checker engine, an unrecognized action
id yields the "No handler found" failure. -/
theorem fix_issue_dispatch_witness :
    networkEngine.fix_issue "nonexistent_action" { entries := [] } =
      FixResult.mkFailure "No handler found for action: nonexistent_action" := by
  have h := (fix_issue_dispatch networkEngine "nonexistent_action"
    { entries := [] }).1
  exact h (by
    intro c hc
    simp only [networkEngine, ScannerEngine.register, ScannerEngine.new,
      List.nil_append, List.mem_singleton] at hc
    subst hc
    exact ⟨"This issue cannot be fixed automatically.", rfl⟩)

/-- C4: `effective_tier` returns Free exactly for a Trial whose present
expiry lies strictly in the past; for a Trial with a future (or equal)
expiry, or with no expiry, and for any non-Trial tier it returns the
stored tier unchanged; and `has_pro_feature(Automation)` holds exactly
when the effective tier is Pro or Trial. -/
theorem effective_tier_correct (l : License) (now : Int) :
    (∀ expires : Int, l.tier = LicenseTier.Trial →
      l.expires_at = some expires → expires < now →
      l.effective_tier now = LicenseTier.Free)
    ∧ (∀ expires : Int, l.tier = LicenseTier.Trial →
        l.expires_at = some expires → now ≤ expires →
        l.effective_tier now = l.tier)
    ∧ (l.tier = LicenseTier.Trial → l.expires_at = none →
        l.effective_tier now = l.tier)
    ∧ (l.tier ≠ LicenseTier.Trial → l.effective_tier now = l.tier)
    ∧ (l.has_pro_feature now ProFeature.Automation = true ↔
        (l.effective_tier now = LicenseTier.Pro ∨
          l.effective_tier now = LicenseTier.Trial)) := by
  refine ⟨?_, ?_, ?_, ?_, ?_⟩
  · intro expires htier hexp hlt
    have hexpired : l.is_trial_expired now = true := by
      simp [License.is_trial_expired, htier, hexp]
      omega
    simp [License.effective_tier, htier, hexpired]
  · intro expires htier hexp hle
    have hnot : l.is_trial_expired now = false := by
      simp [License.is_trial_expired, htier, hexp]
      omega
    simp [License.effective_tier, htier, hnot]
  · intro htier hexp
    have hnot : l.is_trial_expired now = false := by
      simp [License.is_trial_expired, htier, hexp]
    simp [License.effective_tier, htier, hnot]
  · intro htier
    have hnot : l.is_trial_expired now = false := by
      simp [License.is_trial_expired, htier]
    simp [License.effective_tier, htier, hnot]
  · simp [License.has_pro_feature]

/-- Witness for C4: a trial that expired at time 100, seen at time 200,
is effectively Free and lacks the Automation capability. -/
theorem effective_tier_correct_witness :
    ({ key := none, tier := LicenseTier.Trial, activated_at := 0,
       expires_at := some 100 } : License).effective_tier 200 =
      LicenseTier.Free := by
  exact (effective_tier_correct _ 200).1 100 rfl rfl (by decide)

/-- C5 counterexample: with an expired Trial on file (expiry 100, now
200), `start_trial` does not succeed with a fresh 14-day Trial — it
fails with the trial-expired error. -/
theorem start_trial_counterexample :
    (LicenseManager.start_trial expiredTrialStore 200).isOk = false
    ∧ LicenseManager.start_trial expiredTrialStore 200 =
        Except.error "Trial period has expired. Please upgrade to Pro." := by
  exact ⟨rfl, rfl⟩

/-- C5 (amended): `start_trial` fails when the stored license tier is
Pro; it also fails — with the trial-expired error — when an expired
Trial is on file (it does not issue a fresh Trial then); a non-expired
Trial on file is returned unchanged and nothing is persisted; otherwise
(no license on file, or a Free license) it succeeds, persisting a fresh
Trial activated `now` and expiring exactly `14 * 86400` seconds later;
and a second call made while the issued Trial is still unexpired returns
that identical license (same activation and expiry timestamps). -/
theorem start_trial_correct (stored : Option License) (now : Int) :
    ((LicenseManager.load stored now).tier = LicenseTier.Pro →
      LicenseManager.start_trial stored now =
        Except.error "Pro license is already active")
    ∧ ((LicenseManager.load stored now).tier = LicenseTier.Trial →
        (LicenseManager.load stored now).is_trial_expired now = true →
        LicenseManager.start_trial stored now =
          Except.error "Trial period has expired. Please upgrade to Pro.")
    ∧ ((LicenseManager.load stored now).tier = LicenseTier.Trial →
        (LicenseManager.load stored now).is_trial_expired now = false →
        LicenseManager.start_trial stored now =
          Except.ok (LicenseManager.load stored now, stored))
    ∧ ((LicenseManager.load stored now).tier = LicenseTier.Free →
        LicenseManager.start_trial stored now =
          Except.ok (freshTrial now, some (freshTrial now)))
    ∧ (freshTrial now).expires_at =
        some ((freshTrial now).activated_at + 14 * 86400)
    ∧ ∀ (lic : License) (st2 : Option License) (now2 : Int),
        LicenseManager.start_trial stored now = Except.ok (lic, st2) →
        lic.is_trial_expired now2 = false →
        LicenseManager.start_trial st2 now2 = Except.ok (lic, st2) := by
  refine ⟨?_, ?_, ?_, ?_, rfl, ?_⟩
  · intro hpro
    simp [LicenseManager.start_trial, hpro]
  · intro htier hexp
    simp [LicenseManager.start_trial, htier, hexp]
  · intro htier hexp
    simp [LicenseManager.start_trial, htier, hexp]
  · intro hfree
    simp [LicenseManager.start_trial, hfree, freshTrial]
  · intro lic st2 now2 hok hnotexp
    unfold LicenseManager.start_trial at hok
    by_cases hpro : (LicenseManager.load stored now).tier = LicenseTier.Pro
    · simp [hpro] at hok
    · rw [if_neg hpro] at hok
      by_cases htrial :
          (LicenseManager.load stored now).tier = LicenseTier.Trial
      · rw [if_pos htrial] at hok
        by_cases hexp :
            (LicenseManager.load stored now).is_trial_expired now = true
        · simp [hexp] at hok
        · rw [if_neg hexp] at hok
          obtain ⟨hlic, hst⟩ := Prod.mk.injEq .. ▸ Except.ok.inj hok
          have hstored : stored = some lic := by
            cases hs : stored with
            | none =>
                rw [hs] at htrial
                simp [LicenseManager.load, License.defaultAt] at htrial
            | some x =>
                rw [hs] at hlic
                simp [LicenseManager.load] at hlic
                rw [hlic]
          have hlt : lic.tier = LicenseTier.Trial := by
            rw [← hlic]
            exact htrial
          have hload2 : LicenseManager.load st2 now2 = lic := by
            subst hst
            rw [hstored]
            simp [LicenseManager.load]
          have hnp : lic.tier ≠ LicenseTier.Pro := by
            rw [hlt]; intro h; cases h
          simp [LicenseManager.start_trial, hload2, hlt, hnp, hnotexp]
      · rw [if_neg htrial] at hok
        obtain ⟨hlic, hst⟩ := Prod.mk.injEq .. ▸ Except.ok.inj hok
        have hlt : lic.tier = LicenseTier.Trial := by
          rw [← hlic]
        have hnp : lic.tier ≠ LicenseTier.Pro := by
          rw [hlt]; intro h; cases h
        have hload2 : LicenseManager.load st2 now2 = lic := by
          rw [← hst, ← hlic]
          simp [LicenseManager.load]
        simp [LicenseManager.start_trial, hload2, hlt, hnp, hnotexp]

/-- Witness for C5: starting from an empty store at time 0 issues the
fresh 14-day Trial, and calling again at time 5 (while it is unexpired)
returns the identical license and store. -/
theorem start_trial_correct_witness :
    LicenseManager.start_trial none 0 =
      Except.ok (freshTrial 0, some (freshTrial 0))
    ∧ LicenseManager.start_trial (some (freshTrial 0)) 5 =
        Except.ok (freshTrial 0, some (freshTrial 0)) := by
  have h1 := (start_trial_correct none 0).2.2.2.1 rfl
  refine ⟨h1, ?_⟩
  exact (start_trial_correct none 0).2.2.2.2.2 (freshTrial 0)
    (some (freshTrial 0)) 5 h1 (by decide)

/-- C9: one scheduler iteration reaches the scan-and-persist step exactly
when all three gates pass in order — automation enabled, license carrying
the Automation capability, and a scan due (no prior timestamp, or
`now ≥ last + interval`); when automation is disabled the iteration
returns at the settings check, before the license is even consulted (the
outcome is independent of the license value); and the schedule intervals
are the fixed seconds 86400, 7·86400 and 30·86400. -/
theorem automation_iteration_gates (settings : AutomationSettings)
    (license : License) (last_scan : Option Int) (now : Int) :
    (run_automation_iteration settings license last_scan now =
        IterationOutcome.RanScan ↔
      settings.automation_enabled = true ∧
      license.has_pro_feature now ProFeature.Automation = true ∧
      (last_scan = none ∨ ∃ ts : Int, last_scan = some ts ∧
        ts + required_interval_seconds settings.run_schedule ≤ now))
    ∧ (settings.automation_enabled = false →
        run_automation_iteration settings license last_scan now =
          IterationOutcome.SkippedDisabled ∧
        ∀ license2 : License,
          run_automation_iteration settings license2 last_scan now =
            run_automation_iteration settings license last_scan now)
    ∧ required_interval_seconds "daily" = 86400
    ∧ required_interval_seconds "weekly" = 7 * 86400
    ∧ required_interval_seconds "monthly" = 30 * 86400 := by
  refine ⟨?_, ?_, rfl, rfl, rfl⟩
  · cases hen : settings.automation_enabled with
    | false => simp [run_automation_iteration, hen]
    | true =>
        cases hpro : license.has_pro_feature now ProFeature.Automation with
        | false => simp [run_automation_iteration, hen, hpro]
        | true =>
            cases hls : last_scan with
            | none =>
                simp [run_automation_iteration, should_run_scan, hen, hpro,
                  hls]
            | some ts =>
                by_cases hdue :
                    ts + required_interval_seconds settings.run_schedule ≤ now
                · simp [run_automation_iteration, should_run_scan, hen, hpro,
                    hls, hdue]
                · simp [run_automation_iteration, should_run_scan, hen, hpro,
                    hls, hdue]
  · intro hdis
    refine ⟨by simp [run_automation_iteration, hdis], ?_⟩
    intro license2
    simp [run_automation_iteration, hdis]

/-- Witness for C9: enabled weekly settings, a Pro license, a scan 8 days
old at `now = 9·86400` — the iteration reaches the scan step. -/
theorem automation_iteration_gates_witness :
    run_automation_iteration
      { automation_enabled := true, run_schedule := "weekly",
        auto_fix_enabled := false }
      { key := none, tier := LicenseTier.Pro, activated_at := 0,
        expires_at := none }
      (some 86400) (9 * 86400) = IterationOutcome.RanScan := by
  exact (automation_iteration_gates _ _ _ _).1.mpr
    ⟨rfl, rfl, Or.inr ⟨86400, rfl, by decide⟩⟩

/-- C10: reading automation settings from a store with no settings row
yields the defaults — automation disabled, weekly schedule, auto-fix
disabled — and with those settings a scheduler iteration stops at the
enabled check for every license, last-scan timestamp and time: no license
check, no scan, no fixes. -/
theorem fresh_store_defaults :
    Db.get_automation_settings none = AutomationSettings.default
    ∧ (Db.get_automation_settings none).automation_enabled = false
    ∧ (Db.get_automation_settings none).run_schedule = "weekly"
    ∧ (Db.get_automation_settings none).auto_fix_enabled = false
    ∧ ∀ (license : License) (last_scan : Option Int) (now : Int),
        run_automation_iteration (Db.get_automation_settings none) license
          last_scan now = IterationOutcome.SkippedDisabled := by
  refine ⟨rfl, rfl, rfl, rfl, ?_⟩
  intro license last_scan now
  rfl

/-- Every ASCII alphanumeric character has a base-36 digit value. -/
theorem charToDigit36_isSome_of_alnum (c : Char)
    (h : isAsciiAlnum c = true) : (charToDigit36 c).isSome = true := by
  unfold isAsciiAlnum at h
  simp only [decide_eq_true_eq] at h
  unfold charToDigit36
  rcases h with ⟨ha, hb⟩ | ⟨ha, hb⟩ | ⟨ha, hb⟩ <;>
    split_ifs <;> first | rfl | omega

/-- On all-alphanumeric text, `filter_map(to_digit(36))` keeps every
character, i.e. it is the map over digit values. -/
theorem filterMap_charToDigit36_eq_map :
    ∀ l : List Char, (∀ c ∈ l, isAsciiAlnum c = true) →
      l.filterMap charToDigit36 =
        l.map (fun c => (charToDigit36 c).getD 0) := by
  intro l
  induction l with
  | nil => intro _; rfl
  | cons c cs ih =>
      intro h
      have hc := charToDigit36_isSome_of_alnum c (h c (List.mem_cons_self c cs))
      obtain ⟨d, hd⟩ := Option.isSome_iff_exists.mp hc
      have hcs := ih (fun x hx => h x (List.mem_cons_of_mem c hx))
      simp [List.filterMap_cons, hd, hcs]

/-- On all-alphanumeric text the UTF-8 byte length is the character
count (each such character is one byte). -/
theorem strBytes_eq_length :
    ∀ l : List Char, (∀ c ∈ l, isAsciiAlnum c = true) →
      strBytes l = l.length := by
  intro l
  induction l with
  | nil => intro _; rfl
  | cons c cs ih =>
      intro h
      have hc : charUtf8Size c = 1 := by
        have halnum := h c (List.mem_cons_self c cs)
        unfold isAsciiAlnum at halnum
        simp only [decide_eq_true_eq] at halnum
        have : c.toNat < 128 := by omega
        simp [charUtf8Size, this]
      have hcs := ih (fun x hx => h x (List.mem_cons_of_mem c hx))
      simp [strBytes] at hcs ⊢
      omega

/-- The per-segment check of `validate_key` (4 bytes, all alphanumeric)
is the spec's segment requirement (4 characters, all alphanumeric). -/
theorem segCheck_iff (seg : List Char) :
    (strBytes seg = 4 ∧ seg.all isAsciiAlnum = true) ↔
      segSpecOk seg := by
  unfold segSpecOk
  simp only [List.all_eq_true]
  constructor
  · rintro ⟨hlen, halnum⟩
    exact ⟨by rw [← strBytes_eq_length seg halnum]; exact hlen, halnum⟩
  · rintro ⟨hlen, halnum⟩
    exact ⟨by rw [strBytes_eq_length seg halnum]; exact hlen, halnum⟩

/-- The checksum check of `verify_checksum`, under alphanumeric payload
segments, is the spec's modular condition on digit values. -/
theorem verify_checksum_iff (p1 p2 p3 p4 : List Char)
    (h1 : ∀ c ∈ p1, isAsciiAlnum c = true)
    (h2 : ∀ c ∈ p2, isAsciiAlnum c = true)
    (h3 : ∀ c ∈ p3, isAsciiAlnum c = true) :
    verify_checksum [p1, p2, p3] p4 = true ↔
      ∃ last d, p4.getLast? = some last ∧ charToDigit36 last = some d ∧
        ((p1 ++ p2 ++ p3).map (fun c => (charToDigit36 c).getD 0)).sum % 36
          = d := by
  unfold verify_checksum
  dsimp only
  have hflat : ([p1, p2, p3] : List (List Char)).flatten = p1 ++ p2 ++ p3 := by
    simp
  rw [hflat]
  have hall : ∀ c ∈ p1 ++ p2 ++ p3, isAsciiAlnum c = true := by
    intro c hc
    rcases List.mem_append.mp hc with hc' | hc'
    · rcases List.mem_append.mp hc' with hc'' | hc''
      · exact h1 c hc''
      · exact h2 c hc''
    · exact h3 c hc'
  rw [filterMap_charToDigit36_eq_map _ hall]
  cases hlast : p4.getLast? with
  | none => simp
  | some last_char =>
      cases hd : charToDigit36 last_char with
      | none => simp [hd]
      | some expected =>
          simp [hd, decide_eq_true_eq]
          exact eq_comm

/-- C6: `validate_key` accepts a key exactly when the dash-split of the
key has five segments, the first is the literal `HSPC`, the three payload
segments and the checksum segment are each four alphanumeric characters,
and the trailing character of the checksum segment, as a base-36 digit,
equals the payload's digit-value sum modulo 36; every other key is
rejected. -/
theorem validate_key_correct (key : String) :
    validate_key key = true ↔ keySpecValid key := by
  unfold validate_key keySpecValid
  rcases hsplit : splitChars (fun c => c = '-') key.data with
    _ | ⟨p0, _ | ⟨p1, _ | ⟨p2, _ | ⟨p3, _ | ⟨p4, _ | ⟨p5, tail⟩⟩⟩⟩⟩⟩
  · simp
  · simp
  · simp
  · simp
  · simp
  · -- exactly five segments
    simp only [Bool.and_eq_true, decide_eq_true_eq, List.all_cons,
      List.all_nil, Bool.and_true]
    constructor
    · rintro ⟨⟨hp0, hs1, hs2, hs3, hs4⟩, hchk⟩
      have q1 := (segCheck_iff p1).mp hs1
      have q2 := (segCheck_iff p2).mp hs2
      have q3 := (segCheck_iff p3).mp hs3
      have q4 := (segCheck_iff p4).mp hs4
      obtain ⟨last, d, hlast, hd, hsum⟩ :=
        (verify_checksum_iff p1 p2 p3 p4 q1.2 q2.2 q3.2).mp hchk
      exact ⟨p1, p2, p3, p4, by rw [hp0], q1, q2, q3, q4,
        last, d, hlast, hd, hsum⟩
    · rintro ⟨q1, q2, q3, q4, heq, hseg1, hseg2, hseg3, hseg4,
        last, d, hlast, hd, hsum⟩
      simp only [List.cons.injEq, and_true] at heq
      obtain ⟨hp0, hq1, hq2, hq3, hq4⟩ := heq
      subst hq1; subst hq2; subst hq3; subst hq4
      refine ⟨⟨hp0, (segCheck_iff p1).mpr hseg1, (segCheck_iff p2).mpr hseg2,
        (segCheck_iff p3).mpr hseg3, (segCheck_iff p4).mpr hseg4⟩, ?_⟩
      exact (verify_checksum_iff p1 p2 p3 p4 hseg1.2 hseg2.2 hseg3.2).mpr
        ⟨last, d, hlast, hd, hsum⟩
  · simp

/-- Witness for C6: the key `HSPC-1234-5678-9ABC-DEF6` (payload digit sum
78, 78 mod 36 = 6, trailing checksum character 6) is accepted, and hence
satisfies the spec predicate; altering the trailing character to 0 is
rejected. -/
theorem validate_key_correct_witness :
    validate_key "HSPC-1234-5678-9ABC-DEF6" = true
    ∧ keySpecValid "HSPC-1234-5678-9ABC-DEF6"
    ∧ validate_key "HSPC-1234-5678-9ABC-DEF0" = false := by
  refine ⟨by decide, ?_, by decide⟩
  exact (validate_key_correct "HSPC-1234-5678-9ABC-DEF6").mp (by decide)

end HealthSpeed
